import Mathlib

/-
  Verification development for the DICOMScanStation repository.

  The Go sources are shallowly embedded: each Go function used by a claim is
  translated into an executable Lean definition operating on `String` /
  `List Char` values.  External processes (findscu, img2dcm, dcmodify,
  dcmsend, scanimage) and the filesystem are modelled as explicit
  environment parameters: a query environment `String → QueryResult`, a
  per-file outcome environment `Nat → FileOutcome`, a file-existence
  predicate `String → Bool`.  Go byte indices coincide with character
  indices on the ASCII tool output the program parses, so strings are
  modelled as lists of characters.
-/

/-! ### String utilities mirroring the Go standard library -/

/-- Model of `strings.Contains s sub`: `sub` occurs as a contiguous substring of `s`. -/
def strContains (s sub : String) : Bool :=
  decide (sub.toList <:+: s.toList)

/-- Drop leading and trailing whitespace from a character list
(`strings.TrimSpace`, restricted to the ASCII whitespace the tool output
contains). -/
def trimChars (l : List Char) : List Char :=
  ((l.dropWhile Char.isWhitespace).reverse.dropWhile Char.isWhitespace).reverse

/-- Model of `strings.TrimSpace`. -/
def strTrim (s : String) : String :=
  String.mk (trimChars s.toList)

/-- Helper for `fields`: accumulate the current (reversed) token while
splitting on whitespace runs. -/
def fieldsAux : List Char → List Char → List (List Char)
  | [], cur => if cur.isEmpty then [] else [cur.reverse]
  | c :: rest, cur =>
    if c.isWhitespace then
      if cur.isEmpty then fieldsAux rest [] else cur.reverse :: fieldsAux rest []
    else fieldsAux rest (c :: cur)

/-- Model of `strings.Fields`: split around runs of whitespace, dropping empty tokens. -/
def fields (s : String) : List String :=
  (fieldsAux s.toList []).map String.mk

/-- Split a character list on a separator character (`strings.Split` with a
one-character separator keeps empty pieces). -/
def splitOnCharAux (sep : Char) : List Char → List Char → List (List Char)
  | [], cur => [cur.reverse]
  | c :: rest, cur =>
    if c = sep then cur.reverse :: splitOnCharAux sep rest []
    else splitOnCharAux sep rest (c :: cur)

/-- Model of `strings.Split s "\n"`. -/
def splitLines (s : String) : List String :=
  (splitOnCharAux (Char.ofNat 10) s.toList []).map String.mk

/-- Model of `strings.Index s sub` as an optional character index of the first
occurrence. -/
def indexOfSub : List Char → List Char → Option Nat
  | [], pat => if pat.isEmpty then some 0 else none
  | c :: rest, pat =>
    if pat.isPrefixOf (c :: rest) then some 0
    else (indexOfSub rest pat).map (· + 1)

/-- Model of `strings.LastIndex s c` for a single character. -/
def lastIdxOf (l : List Char) (c : Char) : Option Nat :=
  (l.reverse.findIdx? (· = c)).map (fun i => l.length - 1 - i)

/-- Model of `strings.Replace s pat rep 1`: replace the first occurrence only. -/
def replaceFirstChars : List Char → List Char → List Char → List Char
  | l, [], rep => rep ++ l
  | [], _, _ => []
  | c :: rest, pat, rep =>
    if pat.isPrefixOf (c :: rest) then rep ++ (c :: rest).drop pat.length
    else c :: replaceFirstChars rest pat rep

/-- Model of `strings.Replace s pat rep 1` on strings. -/
def replaceFirst (s pat rep : String) : String :=
  String.mk (replaceFirstChars s.toList pat.toList rep.toList)

/-! ### Data model of the dicom package -/

/-- Go struct `dicom.PatientInfo`. -/
structure PatientInfo where
  PatientID : String
  Name : String
  BirthDate : String
  Gender : String
  StudyDate : String
deriving DecidableEq

/-- The zero value `&PatientInfo{}` allocated at each `Find Response:` marker. -/
def emptyPatient : PatientInfo :=
  { PatientID := "", Name := "", BirthDate := "", Gender := "", StudyDate := "" }

/-- Result of one external `findscu` invocation: `ok` is true when the
process exited successfully, `output` is its combined stdout/stderr text. -/
structure QueryResult where
  ok : Bool
  output : String

/-! ### parseFindscuOutput -/

/-- The loop state of `parseFindscuOutput`: accepted records, the record
under construction, and the `inResponse` flag. -/
structure ParseState where
  patients : List PatientInfo
  current : Option PatientInfo
  inResponse : Bool

/-- Flush `currentPatient` into the result list; a record is accepted only
once a display name has been observed. -/
def flushCurrent (st : ParseState) : List PatientInfo :=
  match st.current with
  | some p => if p.Name ≠ "" then st.patients ++ [p] else st.patients
  | none => st.patients

/-- Extract the bracketed value of a findscu output line:
`line[idx+1 : endIdx]` for the first indices of the two brackets, trimmed.
When the first closing bracket precedes the opening one the Go program
would fault on an out-of-range slice; such lines do not occur in tool
output and yield no extraction here. -/
def bracketContent (line : String) : Option String :=
  let cs := line.toList
  match cs.findIdx? (· = '['), cs.findIdx? (· = ']') with
  | some idx, some endIdx =>
    if idx + 1 ≤ endIdx then
      some (strTrim (String.mk ((cs.drop (idx + 1)).take (endIdx - (idx + 1)))))
    else none
  | _, _ => none

/-- One iteration of the line loop of `parseFindscuOutput`. -/
def parseLine (st : ParseState) (rawLine : String) : ParseState :=
  let line := strTrim rawLine
  if strContains line "Find Response:" then
    { patients := flushCurrent st, current := some emptyPatient, inResponse := true }
  else if !st.inResponse then st
  else
    let st' :=
      match st.current with
      | none => st
      | some p =>
        if strContains line "PatientName" then
          match bracketContent line with
          | some name =>
            if name ≠ "*" ∧ name ≠ "" then { st with current := some { p with Name := name } }
            else st
          | none => st
        else if strContains line "PatientID" then
          match bracketContent line with
          | some v => { st with current := some { p with PatientID := v } }
          | none => st
        else if strContains line "PatientBirthDate" then
          match bracketContent line with
          | some v => { st with current := some { p with BirthDate := v } }
          | none => st
        else if strContains line "PatientSex" then
          match bracketContent line with
          | some v => { st with current := some { p with Gender := v } }
          | none => st
        else if strContains line "StudyDate" then
          match bracketContent line with
          | some v => { st with current := some { p with StudyDate := v } }
          | none => st
        else st
    if line = "" then { st' with inResponse := false } else st'

/-- Model of `dicom.parseFindscuOutput` (its error return is always nil in the
source, so the Lean embedding returns the record list directly). -/
def parseFindscuOutput (output : String) : List PatientInfo :=
  flushCurrent ((splitLines output).foldl parseLine
    { patients := [], current := none, inResponse := false })

/-! ### SearchPatients -/

/-- The search patterns tried by `SearchPatients`: exact match for a
birthdate search, prefix/substring/suffix wildcards for a name search. -/
def searchPatterns (searchTerm searchType : String) : List String :=
  if searchType = "birthdate" then [searchTerm]
  else [searchTerm ++ "*", "*" ++ searchTerm ++ "*", "*" ++ searchTerm]

/-- The per-record merge of `SearchPatients`: keep a record when its
`PatientID` is non-empty and not yet seen, appending the id to the seen
set. -/
def mergeUnique : List PatientInfo → List PatientInfo → List String →
    List PatientInfo × List String
  | [], acc, seen => (acc, seen)
  | p :: rest, acc, seen =>
    if p.PatientID ≠ "" ∧ p.PatientID ∉ seen then
      mergeUnique rest (acc ++ [p]) (seen ++ [p.PatientID])
    else mergeUnique rest acc seen

/-- The pattern loop of `SearchPatients`: on process failure, return the
combined output as `DICOM error` when it contains the association-failure
marker, otherwise fall through to the next pattern; on success, parse and
merge the records. -/
def searchLoop (env : String → QueryResult) :
    List String → List PatientInfo → List String → Except String (List PatientInfo)
  | [], acc, _ => .ok acc
  | pat :: rest, acc, seen =>
    let r := env pat
    if r.ok then
      let m := mergeUnique (parseFindscuOutput r.output) acc seen
      searchLoop env rest m.1 m.2
    else if strContains r.output "Association Request Failed" then
      .error ("DICOM error: " ++ strTrim r.output)
    else
      searchLoop env rest acc seen

/-- Model of `dicom.SearchPatients`.  Here `env` gives each issued pattern's findscu
result, `testOk` the outcome of the diagnostic wildcard probe run when the
merge is empty, `remoteHost`/`remotePort` the configured endpoint used in
the unreachable-server message. -/
def searchPatients (searchTerm searchType : String) (env : String → QueryResult)
    (testOk : Bool) (remoteHost remotePort : String) : Except String (List PatientInfo) :=
  match searchLoop env (searchPatterns searchTerm searchType) [] [] with
  | .error e => .error e
  | .ok allPatients =>
    if allPatients.isEmpty then
      if testOk then .ok allPatients
      else .error ("unable to connect to DICOM server at " ++ remoteHost ++ ":" ++ remotePort)
    else .ok allPatients

/-! ### Export pipeline -/

/-- Go struct `dicom.FileProgress`. -/
structure FileProgress where
  Filename : String
  Status : String
  Message : String
  Progress : Nat
deriving DecidableEq

/-- Outcomes of the four external-tool steps for one file: `none` is
success, `some e` failure with the tool's error text `e` (the strings the
source builds from the tool name, exit error and combined output). -/
structure FileOutcome where
  convert : Option String
  update : Option String
  send : Option String
  cleanup : Option String

/-- The successive values written to `progress[i]` for one file by
`SendToPacs`: initial append at 0, then the checkpoint writes, ending in
either the completed state or a failed state carrying the step's error.  A
cleanup failure is logged only and does not change the trace. -/
def fileTrace (fn : String) (o : FileOutcome) : List FileProgress :=
  let p0 : FileProgress := ⟨fn, "converting", "Converting JPG to DICOM format...", 0⟩
  let p20 : FileProgress := ⟨fn, "converting", "Converting JPG to DICOM format...", 20⟩
  match o.convert with
  | some e => [p0, p20, ⟨fn, "failed", "Conversion failed: " ++ e, 0⟩]
  | none =>
    let p50 : FileProgress := ⟨fn, "updating", "Updating DICOM with patient data...", 50⟩
    match o.update with
    | some e => [p0, p20, p50, ⟨fn, "failed", "Update failed: " ++ e, 0⟩]
    | none =>
      let p80 : FileProgress := ⟨fn, "sending", "Sending to PACs server...", 80⟩
      match o.send with
      | some e => [p0, p20, p50, p80, ⟨fn, "failed", "Upload failed: " ++ e, 0⟩]
      | none =>
        [p0, p20, p50, p80,
         ⟨fn, "cleaning", "Cleaning up temporary files...", 90⟩,
         ⟨fn, "completed", "Successfully uploaded to PACs and cleaned up", 100⟩]

/-- The final value of `progress[i]` for one file. -/
def fileFinal (fn : String) (o : FileOutcome) : FileProgress :=
  (fileTrace fn o).getLastD ⟨fn, "converting", "Converting JPG to DICOM format...", 0⟩

/-- The progress list returned by `SendToPacs`: the loop appends one entry
per file and all later writes in iteration `i` go to index `i`, so the
returned list holds each file's final state, in discovery order. -/
def sendToPacsRun (env : Nat → FileOutcome) : List String → Nat → List FileProgress
  | [], _ => []
  | f :: rest, i => fileFinal f (env i) :: sendToPacsRun env rest (i + 1)

/-- The study context generated once per `SendToPacs` run from the
timestamp and the random hex suffix. -/
structure StudyContext where
  studyID : String
  studyInstanceUID : String
  seriesInstanceUID : String

/-- Model of `generateStudyID` plus the UID derivations at the top of `SendToPacs`. -/
def mkStudyContext (timestamp randomHex : String) : StudyContext :=
  let studyInstanceUID := "1.2.840.10008.1.2.3." ++ timestamp
  { studyID := "STUDY_" ++ timestamp ++ "_" ++ randomHex
    studyInstanceUID := studyInstanceUID
    seriesInstanceUID := studyInstanceUID ++ ".1" }

/-- The tag values passed to one `dcmodify` invocation by
`updateDicomWithPatientData`. -/
structure TagCall where
  dcmFile : String
  patientName : String
  patientID : String
  studyID : String
  studyInstanceUID : String
  seriesInstanceUID : String
  sopInstanceUID : String
  instanceNumber : Nat
deriving DecidableEq

/-- Model of `dicom.formatPatientNameForDicom`. -/
def formatPatientNameForDicom (name : String) : String :=
  match fields (strTrim name) with
  | [] => ""
  | [single] => single
  | lastName :: firstName :: rest =>
    let formattedName := lastName ++ "^" ++ firstName
    match rest with
    | [] => formattedName
    | middle :: _ => formattedName ++ "^" ++ middle

/-- Model of `updateDicomWithPatientData`: the SOP instance UID is the series UID
followed by `"."` and the instance number. -/
def updateDicomCall (ctx : StudyContext) (patient : PatientInfo)
    (dcmFile : String) (instanceNumber : Nat) : TagCall :=
  { dcmFile := dcmFile
    patientName := formatPatientNameForDicom patient.Name
    patientID := patient.PatientID
    studyID := ctx.studyID
    studyInstanceUID := ctx.studyInstanceUID
    seriesInstanceUID := ctx.seriesInstanceUID
    sopInstanceUID := ctx.seriesInstanceUID ++ "." ++ toString instanceNumber
    instanceNumber := instanceNumber }

/-- The output filename chosen by `convertJpgToDicom`. -/
def dcmFileName (jpgFile : String) : String :=
  replaceFirst jpgFile ".jpg" ".dcm"

/-- The `dcmodify` invocations issued by one `SendToPacs` run, with the
0-based loop index of each: file `i` is tagged with instance number `i+1`,
and only when its conversion step succeeded. -/
def tagCallsAux (env : Nat → FileOutcome) (ctx : StudyContext) (patient : PatientInfo) :
    List String → Nat → List (Nat × TagCall)
  | [], _ => []
  | f :: rest, i =>
    match (env i).convert with
    | some _ => tagCallsAux env ctx patient rest (i + 1)
    | none => (i, updateDicomCall ctx patient (dcmFileName f) (i + 1))
        :: tagCallsAux env ctx patient rest (i + 1)

/-! ### Scanner manager: device registry -/

/-- Go struct `scanner.ScannerInfo` (the registry stores one per device
address). -/
structure ScannerInfo where
  Name : String
  Device : String
  Connected : Bool
  Status : String
  LastSeen : String
deriving DecidableEq

/-- The backquote character delimiting the device address in scanimage
output. -/
def backquoteChar : Char := Char.ofNat 96

/-- The closing single-quote character of the device address. -/
def singleQuoteChar : Char := Char.ofNat 39

/-- Parse one line of `scanimage -L` output into a device address and a
display name, as in the line loop of `detectScanners`: the address sits
between the first backquote and the last single quote, the name follows
the first occurrence of the five characters of the phrase `is a` plus a
space. -/
def parseScanLine (rawLine : String) : Option (String × String) :=
  let line := strTrim rawLine
  if line = "" then none
  else if strContains line "device" && strContains line "is a" then
    let cs := line.toList
    match cs.findIdx? (· = backquoteChar), lastIdxOf cs singleQuoteChar with
    | some deviceStart, some deviceEnd =>
      if deviceEnd ≤ deviceStart then none
      else
        let device := String.mk ((cs.drop (deviceStart + 1)).take (deviceEnd - (deviceStart + 1)))
        match indexOfSub cs ("is a ".toList) with
        | none => none
        | some nameStart =>
          some (device, strTrim (String.mk (cs.drop (nameStart + 5))))
    | _, _ => none
  else none

/-- All `(device, name)` pairs recognised in one `scanimage -L` output, in
line order. -/
def parseScanners (output : String) : List (String × String) :=
  (splitLines output).filterMap parseScanLine

/-- Mark a registry record disconnected (fields written by the
disconnect paths of `detectScanners`). -/
def disconnectInfo (s : ScannerInfo) : ScannerInfo :=
  { s with Connected := false, Status := "disconnected" }

/-- One recognised line's effect on the registry: refresh an existing
record's connection fields, or insert a new record. -/
def upsertScanner (now : String) (st : List (String × ScannerInfo))
    (dn : String × String) : List (String × ScannerInfo) :=
  if st.any (fun e => e.1 = dn.1) then
    st.map (fun e =>
      if e.1 = dn.1 then
        (e.1, { e.2 with Connected := true, Status := "connected", LastSeen := now })
      else e)
  else
    st ++ [(dn.1, { Name := dn.2, Device := dn.1, Connected := true,
                    Status := "connected", LastSeen := now })]

/-- One poll step of `detectScanners` on the registry.  `res` is the
enumeration result: `none` when `scanimage -L` failed (every known device
is marked disconnected), otherwise its output text.  After reconciling the
recognised devices, every registry entry absent from the enumeration is
marked disconnected; no entry is ever removed. -/
def detectStep (st : List (String × ScannerInfo)) (res : Option String)
    (now : String) : List (String × ScannerInfo) :=
  match res with
  | none => st.map (fun e => (e.1, disconnectInfo e.2))
  | some out =>
    let found := parseScanners out
    let st1 := found.foldl (upsertScanner now) st
    st1.map (fun e =>
      if found.any (fun dn => dn.1 = e.1) then e else (e.1, disconnectInfo e.2))

/-! ### Scanner manager: Stop -/

/-- Teardown state of the scanner manager: whether the poll context has
been cancelled and whether `stopChan` has been closed. -/
structure StopState where
  ctxCancelled : Bool
  stopChanClosed : Bool
deriving DecidableEq

/-- Go's `close` on a channel: closing an already-closed channel panics
with `close of closed channel`. -/
def closeChan (alreadyClosed : Bool) : Except String Unit :=
  if alreadyClosed then .error "close of closed channel" else .ok ()

/-- Model of `ScannerManager.Stop`: cancel the context (idempotent for a
`context.CancelFunc`), then close `stopChan`. -/
def stopOnce (st : StopState) : Except String StopState :=
  let st1 := { st with ctxCancelled := true }
  match closeChan st1.stopChanClosed with
  | .error e => .error e
  | .ok _ => .ok { st1 with stopChanClosed := true }

/-- Two consecutive `Stop()` calls. -/
def stopTwice (st : StopState) : Except String StopState :=
  match stopOnce st with
  | .error e => .error e
  | .ok st1 => stopOnce st1

/-! ### Scanner manager: ScanDocument file discovery -/

/-- The batch filename probed for page `n`: `base_n.jpg` (the `%d` batch
pattern instantiated by scanimage). -/
def batchFilename (base : String) (n : Nat) : String :=
  base ++ "_" ++ toString n ++ ".jpg"

/-- The path `TempFilesDir + "/" + filename`. -/
def fullPath (dir fname : String) : String :=
  dir ++ "/" ++ fname

/-- The safety cap of the page-probing loops. -/
def maxPages : Nat := 50

/-- The sequential probe loop of `ScanDocument`: starting at `page`, with
`fuel` probes remaining (pageNum runs 1..50), collect `base_n.jpg` until
the first missing file. -/
def batchLoop (ex : String → Bool) (dir base : String) : Nat → Nat → List String
  | _, 0 => []
  | page, Nat.succ fuel =>
    let filename := batchFilename base page
    if ex (fullPath dir filename) then filename :: batchLoop ex dir base (page + 1) fuel
    else []

/-- The five naming variants probed per page by the duplex fallback. -/
def duplexPatterns (base : String) (page : Nat) : List String :=
  [ batchFilename base page
  , base ++ "_front_" ++ toString page ++ ".jpg"
  , base ++ "_back_" ++ toString page ++ ".jpg"
  , base ++ "_" ++ toString page ++ "_front.jpg"
  , base ++ "_" ++ toString page ++ "_back.jpg" ]

/-- The duplex fallback loop: per page collect every existing variant, in
pattern order, stopping at the first page where none exists. -/
def duplexLoop (ex : String → Bool) (dir base : String) : Nat → Nat → List String
  | _, 0 => []
  | page, Nat.succ fuel =>
    let found := (duplexPatterns base page).filter (fun p => ex (fullPath dir p))
    if found.isEmpty then []
    else found ++ duplexLoop ex dir base (page + 1) fuel

/-- The file-discovery phase of `ScanDocument` after a successful
`scanimage` run.  `ex` is the filesystem's existence predicate at probing
time.  Multi-page: sequential probe, then (for duplex jobs that found
nothing) the variant probe, then the empty-result check; single-page: the
fixed output path is checked directly. -/
def scanCollect (multiPage duplex : Bool) (ex : String → Bool)
    (dir base : String) : Except String (List String) :=
  if multiPage then
    let first := batchLoop ex dir base 1 maxPages
    let filenames := if duplex && first.isEmpty then duplexLoop ex dir base 1 maxPages else first
    if filenames.isEmpty then .error "scan completed but no files were created"
    else .ok filenames
  else
    let filename := base ++ ".jpg"
    if ex (fullPath dir filename) then .ok [filename]
    else .error "scan completed but file was not created"

/-! ### Statement-level definitions -/

/-- The concatenation, in pattern order, of the record lists parsed from
each pattern's query output. -/
def parsedStream (env : String → QueryResult) (pats : List String) : List PatientInfo :=
  (pats.map (fun p => parseFindscuOutput (env p).output)).flatten

/-- The merge of `SearchPatients` phrased as a direct recursion over the
incoming record stream; proved below to coincide with the accumulating
`mergeUnique` the source loop performs. -/
def dedupById : List String → List PatientInfo → List PatientInfo
  | _, [] => []
  | seen, p :: rest =>
    if p.PatientID ≠ "" ∧ p.PatientID ∉ seen then
      p :: dedupById (seen ++ [p.PatientID]) rest
    else dedupById seen rest

/-! ### Scanner manager: explicit-store registry (pointer semantics)

The registry actually stores `*ScannerInfo`: the map `sm.scanners` maps a
device address to a heap cell, the poll loop mutates those cells in place,
and `GetScanners` / `GetConnectedScanners` build their result slice out of
the very same cell references.  To settle the aliasing claim this second
embedding makes the heap explicit: cells are indexed by `Nat`, the
registry maps device keys to cell indices, and the getters return cell
indices — dereferencing one after a later poll step reads the mutated
cell. -/

/-- The registry with Go's heap made explicit: `heap` gives each cell's
current `ScannerInfo`, `scanners` is the map from device address to the
cell a `*ScannerInfo` points at, `nextAddr` the next fresh cell. -/
structure RegistryState where
  heap : Nat → ScannerInfo
  scanners : List (String × Nat)
  nextAddr : Nat

/-- Write one heap cell. -/
def heapUpdate (h : Nat → ScannerInfo) (a : Nat) (v : ScannerInfo) :
    Nat → ScannerInfo :=
  fun x => if x = a then v else h x

/-- One recognised line's effect under pointer semantics: an existing
device's cell is mutated through the stored reference, a new device gets a
fresh cell appended to the map. -/
def upsertScannerStore (now : String) (st : RegistryState)
    (dn : String × String) : RegistryState :=
  match st.scanners.find? (fun e => e.1 = dn.1) with
  | some e =>
    let v := { st.heap e.2 with Connected := true, Status := "connected", LastSeen := now }
    { st with heap := heapUpdate st.heap e.2 v }
  | none =>
    let v : ScannerInfo := { Name := dn.2, Device := dn.1, Connected := true,
                             Status := "connected", LastSeen := now }
    { heap := heapUpdate st.heap st.nextAddr v
      scanners := st.scanners ++ [(dn.1, st.nextAddr)]
      nextAddr := st.nextAddr + 1 }

/-- One poll step of `detectScanners` under pointer semantics: on
enumeration failure every registered cell is mutated to disconnected;
otherwise recognised devices are upserted and every cell whose device is
absent from the enumeration is mutated to disconnected.  Cells are only
ever written through, never replaced or dropped from the map. -/
def detectScannersStore (st : RegistryState) (res : Option String)
    (now : String) : RegistryState :=
  match res with
  | none =>
    let h2 := st.scanners.foldl
      (fun h e => heapUpdate h e.2 (disconnectInfo (h e.2))) st.heap
    { st with heap := h2 }
  | some out =>
    let found := parseScanners out
    let st1 := found.foldl (upsertScannerStore now) st
    let h2 := st1.scanners.foldl
      (fun h e =>
        if found.any (fun dn => dn.1 = e.1) then h
        else heapUpdate h e.2 (disconnectInfo (h e.2))) st1.heap
    { st1 with heap := h2 }

/-- Lexicographic byte order on character lists (Go's `<` on strings,
restricted to the ASCII names scanimage reports). -/
def listCharLt : List Char → List Char → Bool
  | [], [] => false
  | [], _ :: _ => true
  | _ :: _, [] => false
  | a :: as, b :: bs =>
    if a.toNat < b.toNat then true
    else if b.toNat < a.toNat then false
    else listCharLt as bs

/-- The case-insensitive comparison of the getters:
`strings.ToLower(x) < strings.ToLower(y)`. -/
def strLtCI (x y : String) : Bool :=
  listCharLt (x.toList.map Char.toLower) (y.toList.map Char.toLower)

/-- Ordered insertion for `insertionSort`. -/
def insertBy (lt : Nat → Nat → Bool) (x : Nat) : List Nat → List Nat
  | [] => [x]
  | y :: ys => if lt x y then x :: y :: ys else y :: insertBy lt x ys

/-- A sort realising `sort.Slice` (whose order on equal keys is
unspecified; insertion sort is one admissible refinement). -/
def insertionSort (lt : Nat → Nat → Bool) : List Nat → List Nat
  | [] => []
  | x :: xs => insertBy lt x (insertionSort lt xs)

/-- Model of `ScannerManager.GetScanners` under pointer semantics: collect
the registry's cell references and sort them by the case-insensitive name
read through each reference.  The returned list holds the registry's own
cells, not copies. -/
def GetScanners (st : RegistryState) : List Nat :=
  insertionSort (fun a b => strLtCI (st.heap a).Name (st.heap b).Name)
    (st.scanners.map Prod.snd)

/-- Model of `ScannerManager.GetConnectedScanners` under pointer
semantics: the connected subset of the registry's cell references, sorted
the same way. -/
def GetConnectedScanners (st : RegistryState) : List Nat :=
  insertionSort (fun a b => strLtCI (st.heap a).Name (st.heap b).Name)
    ((st.scanners.map Prod.snd).filter (fun a => (st.heap a).Connected))

/-! ### Shared helper lemmas -/

/-- A list of characters none of which is whitespace is untouched by
`dropWhile Char.isWhitespace`. -/
theorem dropWhile_ws_eq_self (l : List Char)
    (h : ∀ c ∈ l, c.isWhitespace = false) :
    l.dropWhile Char.isWhitespace = l := by
  cases l with
  | nil => rfl
  | cons c rest => simp [List.dropWhile_cons, h c (List.mem_cons_self c rest)]

/-- Trimming a whitespace-free character list changes nothing. -/
theorem trimChars_eq_self (l : List Char)
    (h : ∀ c ∈ l, c.isWhitespace = false) :
    trimChars l = l := by
  unfold trimChars
  rw [dropWhile_ws_eq_self l h,
      dropWhile_ws_eq_self l.reverse (fun c hc => h c (List.mem_reverse.mp hc)),
      List.reverse_reverse]

/-- A non-empty whitespace-free character list is one single field. -/
theorem fieldsAux_single (l : List Char)
    (h : ∀ c ∈ l, c.isWhitespace = false) :
    ∀ cur : List Char,
      fieldsAux l cur = if (cur.reverse ++ l).isEmpty then [] else [cur.reverse ++ l] := by
  induction l with
  | nil =>
    intro cur
    simp [fieldsAux]
  | cons c rest ih =>
    intro cur
    have hc : c.isWhitespace = false := h c (List.mem_cons_self c rest)
    have hrest : ∀ x ∈ rest, x.isWhitespace = false :=
      fun x hx => h x (List.mem_cons_of_mem c hx)
    rw [fieldsAux, if_neg (by simp [hc])]
    rw [ih hrest (c :: cur)]
    simp

/-! ### Claim C7 : double Stop -/

/-- Claim C7: a first `Stop()` cancels the context and closes `stopChan`;
a second `Stop()` reaches `close` on the already-closed channel and the
process panics with `close of closed channel` — the claimed
idempotent-safety does not hold in the code. -/
theorem C7_double_stop_panics :
    stopOnce { ctxCancelled := false, stopChanClosed := false } =
      .ok { ctxCancelled := true, stopChanClosed := true } ∧
    stopTwice { ctxCancelled := false, stopChanClosed := false } =
      .error "close of closed channel" := by
  exact ⟨rfl, rfl⟩

/-! ### Claim C8 : patient-name reformatting -/

/-- Claim C8 (counterexample): on the four-token name `A B C D` the code
produces `A^B^C`, not the `^`-join of all tokens `A^B^C^D` — the fourth
and later tokens are discarded. -/
theorem C8_counterexample :
    fields (strTrim "A B C D") = ["A", "B", "C", "D"] ∧
    formatPatientNameForDicom "A B C D" = "A^B^C" ∧
    formatPatientNameForDicom "A B C D" ≠ "A" ++ "^" ++ "B" ++ "^" ++ "C" ++ "^" ++ "D" := by
  exact ⟨by decide, by decide, by decide⟩

/-- Claim C8 (amended): the tag-step name reformatting maps a whitespace-free
single-token name to itself unchanged, and a multi-token name to its first
at most three tokens joined by `^` in Last^First^Middle order; tokens after
the third are dropped. -/
theorem C8_name_format (name : String) :
    (name ≠ "" → name.toList.all (fun c => !c.isWhitespace) = true →
      formatPatientNameForDicom name = name)
    ∧ (∀ a b : String, fields (strTrim name) = [a, b] →
        formatPatientNameForDicom name = a ++ "^" ++ b)
    ∧ (∀ (a b c : String) (rest : List String),
        fields (strTrim name) = a :: b :: c :: rest →
        formatPatientNameForDicom name = a ++ "^" ++ b ++ "^" ++ c) := by
  refine ⟨?_, ?_, ?_⟩
  · intro hne hall
    have hws : ∀ c ∈ name.toList, c.isWhitespace = false := by
      intro c hc
      have := List.all_eq_true.mp hall c hc
      simpa using this
    have hnil : name.toList.isEmpty = false := by
      cases hd : name.toList with
      | nil =>
        exfalso
        apply hne
        cases name with
        | mk data =>
          have hd2 : data = [] := hd
          rw [hd2]
      | cons a l => rfl
    have htrim : strTrim name = name := by
      unfold strTrim
      rw [trimChars_eq_self name.toList hws]
      cases name; rfl
    have hfields : fields name = [name] := by
      unfold fields
      rw [fieldsAux_single name.toList hws []]
      rw [List.reverse_nil, List.nil_append, hnil]
      simp only [Bool.false_eq_true, if_false]
      cases name; rfl
    unfold formatPatientNameForDicom
    rw [htrim, hfields]
  · intro a b h
    unfold formatPatientNameForDicom
    rw [h]
  · intro a b c rest h
    unfold formatPatientNameForDicom
    rw [h]

/-- Claim C8 (witness): concrete instances of the amended statement. -/
theorem C8_name_format_witness :
    formatPatientNameForDicom "Smith" = "Smith" ∧
    formatPatientNameForDicom "Doe John" = "Doe" ++ "^" ++ "John" ∧
    formatPatientNameForDicom "Doe John Q" = "Doe" ++ "^" ++ "John" ++ "^" ++ "Q" := by
  refine ⟨(C8_name_format "Smith").1 (by decide) (by decide),
          (C8_name_format "Doe John").2.1 "Doe" "John" (by decide),
          (C8_name_format "Doe John Q").2.2 "Doe" "John" "Q" [] (by decide)⟩

/-! ### Claim C1 : one study context per export run -/

/-- Every `dcmodify` call of a run carries the run's study identifiers and
the instance/SOP values derived from its 0-based file index. -/
theorem tagCallsAux_fields (env : Nat → FileOutcome) (ctx : StudyContext)
    (patient : PatientInfo) :
    ∀ (files : List String) (i0 : Nat) (ic : Nat × TagCall),
      ic ∈ tagCallsAux env ctx patient files i0 →
      ic.2.studyID = ctx.studyID ∧
      ic.2.studyInstanceUID = ctx.studyInstanceUID ∧
      ic.2.seriesInstanceUID = ctx.seriesInstanceUID ∧
      ic.2.instanceNumber = ic.1 + 1 ∧
      ic.2.sopInstanceUID = ctx.seriesInstanceUID ++ "." ++ toString (ic.1 + 1) := by
  intro files
  induction files with
  | nil =>
    intro i0 ic h
    simp [tagCallsAux] at h
  | cons f rest ih =>
    intro i0 ic h
    rw [tagCallsAux] at h
    cases hc : (env i0).convert with
    | some e =>
      rw [hc] at h
      exact ih (i0 + 1) ic h
    | none =>
      rw [hc] at h
      rcases List.mem_cons.mp h with h1 | h2
      · subst h1
        refine ⟨rfl, rfl, rfl, rfl, rfl⟩
      · exact ih (i0 + 1) ic h2

/-- Claim C1: one export run generates a single study context — every tag
call issued by `SendToPacs` carries the run's study ID, study instance UID
and series instance UID; the file at 0-based index `i` is tagged with
instance number `i+1` and SOP instance UID `series ++ "." ++ (i+1)`; in
particular a 2-page run is tagged with SOP UIDs `series.1` and `series.2`. -/
theorem C1_study_context (ts rh : String) (patient : PatientInfo)
    (env : Nat → FileOutcome) :
    (∀ (files : List String) (ic : Nat × TagCall),
        ic ∈ tagCallsAux env (mkStudyContext ts rh) patient files 0 →
        ic.2.studyID = (mkStudyContext ts rh).studyID ∧
        ic.2.studyInstanceUID = (mkStudyContext ts rh).studyInstanceUID ∧
        ic.2.seriesInstanceUID = (mkStudyContext ts rh).seriesInstanceUID ∧
        ic.2.instanceNumber = ic.1 + 1 ∧
        ic.2.sopInstanceUID =
          (mkStudyContext ts rh).seriesInstanceUID ++ "." ++ toString (ic.1 + 1))
    ∧ (∀ f1 f2 : String, (env 0).convert = none → (env 1).convert = none →
        (tagCallsAux env (mkStudyContext ts rh) patient [f1, f2] 0).map
            (fun ic => ic.2.sopInstanceUID) =
          [(mkStudyContext ts rh).seriesInstanceUID ++ ".1",
           (mkStudyContext ts rh).seriesInstanceUID ++ ".2"]) := by
  constructor
  · intro files ic h
    exact tagCallsAux_fields env (mkStudyContext ts rh) patient files 0 ic h
  · intro f1 f2 h0 h1
    rw [tagCallsAux, h0, tagCallsAux, h1, tagCallsAux]
    simp only [List.map_cons, List.map_nil, updateDicomCall]
    rw [String.append_assoc, String.append_assoc]
    rfl

/-- Claim C1 (witness): a concrete 2-page all-success run tagged under the
timestamp `20250101120000`. -/
theorem C1_study_context_witness :
    (tagCallsAux (fun _ => ⟨none, none, none, none⟩)
        (mkStudyContext "20250101120000" "abcd") emptyPatient
        ["a.jpg", "b.jpg"] 0).map (fun ic => ic.2.sopInstanceUID) =
      ["1.2.840.10008.1.2.3.20250101120000.1.1",
       "1.2.840.10008.1.2.3.20250101120000.1.2"] := by
  have h := (C1_study_context "20250101120000" "abcd" emptyPatient
      (fun _ => ⟨none, none, none, none⟩)).2 "a.jpg" "b.jpg" rfl rfl
  exact h.trans (by decide)

/-! ### Claim C2 : export state machine -/

/-- The error text of a failed step is contained in the failure message
built from it. -/
theorem errTextContained (prefixMsg e : String) :
    e.toList <:+: (prefixMsg ++ e).toList := by
  have h : (prefixMsg ++ e).toList = prefixMsg.toList ++ e.toList := by
    simp [String.toList, String.data_append]
  rw [h]
  exact ⟨prefixMsg.toList, [], by simp⟩

/-- The progress list has one entry per discovered file. -/
theorem sendToPacsRun_length (env : Nat → FileOutcome) :
    ∀ (files : List String) (i0 : Nat),
      (sendToPacsRun env files i0).length = files.length := by
  intro files
  induction files with
  | nil => intro i0; rfl
  | cons f rest ih => intro i0; simp [sendToPacsRun, ih (i0 + 1)]

/-- Entry `i` of the progress list is the final job of file `i`, computed
from that file's own step outcomes alone. -/
theorem sendToPacsRun_get (env : Nat → FileOutcome) :
    ∀ (files : List String) (i0 i : Nat) (h : i < files.length)
      (h2 : i < (sendToPacsRun env files i0).length),
      (sendToPacsRun env files i0).get ⟨i, h2⟩ =
        fileFinal (files.get ⟨i, h⟩) (env (i0 + i)) := by
  intro files
  induction files with
  | nil =>
    intro i0 i h h2
    exact absurd h (Nat.not_lt_zero i)
  | cons f rest ih =>
    intro i0 i h h2
    cases i with
    | zero => rfl
    | succ j =>
      have hj : j < rest.length := Nat.lt_of_succ_lt_succ h
      have hj2 : j < (sendToPacsRun env rest (i0 + 1)).length := by
        rw [sendToPacsRun_length env rest (i0 + 1)]
        exact hj
      have hrec := ih (i0 + 1) j hj hj2
      have hidx : i0 + 1 + j = i0 + (j + 1) := by omega
      rw [hidx] at hrec
      exact hrec

/-- Claim C2: each file's job passes through the fixed checkpoints 0, 20,
50, 80, 90, 100 in stage order converting → updating → sending → cleaning
→ completed; a failing convert/tag/send step leaves that file's final job
failed at progress 0 with a message containing the tool's error text;
each progress entry is determined by its own file's outcomes alone, so
every file ends independently at (`completed`, 100) or (`failed`, 0). -/
theorem C2_export_state_machine (env : Nat → FileOutcome) (files : List String) :
    ((sendToPacsRun env files 0).length = files.length ∧
      ∀ (i : Nat) (h : i < files.length) (h2 : i < (sendToPacsRun env files 0).length),
        (sendToPacsRun env files 0).get ⟨i, h2⟩ = fileFinal (files.get ⟨i, h⟩) (env i))
    ∧ (∀ (fn : String) (o : FileOutcome),
        o.convert = none → o.update = none → o.send = none →
        (fileTrace fn o).map FileProgress.Progress = [0, 20, 50, 80, 90, 100] ∧
        (fileTrace fn o).map FileProgress.Status =
          ["converting", "converting", "updating", "sending", "cleaning", "completed"])
    ∧ (∀ (fn : String) (o : FileOutcome) (e : String), o.convert = some e →
        fileFinal fn o = ⟨fn, "failed", "Conversion failed: " ++ e, 0⟩ ∧
        e.toList <:+: ("Conversion failed: " ++ e).toList ∧
        (fileTrace fn o).map FileProgress.Progress = [0, 20, 0])
    ∧ (∀ (fn : String) (o : FileOutcome) (e : String),
        o.convert = none → o.update = some e →
        fileFinal fn o = ⟨fn, "failed", "Update failed: " ++ e, 0⟩ ∧
        e.toList <:+: ("Update failed: " ++ e).toList ∧
        (fileTrace fn o).map FileProgress.Progress = [0, 20, 50, 0])
    ∧ (∀ (fn : String) (o : FileOutcome) (e : String),
        o.convert = none → o.update = none → o.send = some e →
        fileFinal fn o = ⟨fn, "failed", "Upload failed: " ++ e, 0⟩ ∧
        e.toList <:+: ("Upload failed: " ++ e).toList ∧
        (fileTrace fn o).map FileProgress.Progress = [0, 20, 50, 80, 0])
    ∧ (∀ (fn : String) (o : FileOutcome),
        ((fileFinal fn o).Status = "completed" ∧ (fileFinal fn o).Progress = 100) ∨
        ((fileFinal fn o).Status = "failed" ∧ (fileFinal fn o).Progress = 0)) := by
  refine ⟨⟨sendToPacsRun_length env files 0, ?_⟩, ?_, ?_, ?_, ?_, ?_⟩
  · intro i h h2
    have := sendToPacsRun_get env files 0 i h h2
    simpa using this
  · intro fn o h1 h2 h3
    constructor <;> simp [fileTrace, h1, h2, h3]
  · intro fn o e h1
    refine ⟨?_, errTextContained "Conversion failed: " e, ?_⟩ <;>
      simp [fileTrace, fileFinal, h1]
  · intro fn o e h1 h2
    refine ⟨?_, errTextContained "Update failed: " e, ?_⟩ <;>
      simp [fileTrace, fileFinal, h1, h2]
  · intro fn o e h1 h2 h3
    refine ⟨?_, errTextContained "Upload failed: " e, ?_⟩ <;>
      simp [fileTrace, fileFinal, h1, h2, h3]
  · intro fn o
    cases h1 : o.convert with
    | some e => right; simp [fileTrace, fileFinal, h1]
    | none =>
      cases h2 : o.update with
      | some e => right; simp [fileTrace, fileFinal, h1, h2]
      | none =>
        cases h3 : o.send with
        | some e => right; simp [fileTrace, fileFinal, h1, h2, h3]
        | none => left; simp [fileTrace, fileFinal, h1, h2, h3]

/-- Claim C2 (witness): a 3-page run whose second page fails at the send
step — pages 1 and 3 complete, page 2 fails at progress 0 with the
transmission tool's error text. -/
theorem C2_export_state_machine_witness :
    (sendToPacsRun
        (fun i => if i = 1 then ⟨none, none, some "dcmsend failed: refused", none⟩
                  else ⟨none, none, none, none⟩)
        ["p1.jpg", "p2.jpg", "p3.jpg"] 0).map
        (fun p => (p.Status, p.Progress)) =
      [("completed", 100), ("failed", 0), ("completed", 100)] ∧
    (fileTrace "p1.jpg" ⟨none, none, none, none⟩).map FileProgress.Progress =
      [0, 20, 50, 80, 90, 100] ∧
    (fileFinal "p2.jpg" ⟨none, none, some "dcmsend failed: refused", none⟩).Message =
      "Upload failed: " ++ "dcmsend failed: refused" := by
  refine ⟨by decide, ?_, ?_⟩
  · exact ((C2_export_state_machine (fun _ => ⟨none, none, none, none⟩) []).2.1
      "p1.jpg" ⟨none, none, none, none⟩ rfl rfl rfl).1
  · have h := ((C2_export_state_machine
        (fun _ => ⟨none, none, none, none⟩) []).2.2.2.2.1
        "p2.jpg" ⟨none, none, some "dcmsend failed: refused", none⟩
        "dcmsend failed: refused" rfl rfl rfl).1
    rw [h]

/-! ### Claim C3 : scan output file discovery -/

/-- The sequential probe loop collects exactly the contiguous prefix of
existing batch files, in ascending page order. -/
theorem batchLoop_spec (ex : String → Bool) (dir base : String) :
    ∀ (k page fuel : Nat), k ≤ fuel →
      (∀ i, page ≤ i → i < page + k → ex (fullPath dir (batchFilename base i)) = true) →
      ex (fullPath dir (batchFilename base (page + k))) = false →
      batchLoop ex dir base page fuel = (List.range' page k).map (batchFilename base) := by
  intro k
  induction k with
  | zero =>
    intro page fuel _ _ hmiss
    rw [Nat.add_zero] at hmiss
    cases fuel with
    | zero => rfl
    | succ f => simp [batchLoop, hmiss]
  | succ k ih =>
    intro page fuel hle hall hmiss
    cases fuel with
    | zero => omega
    | succ f =>
      have hp : ex (fullPath dir (batchFilename base page)) = true :=
        hall page (Nat.le_refl page) (by omega)
      rw [batchLoop]
      simp only [hp, if_true]
      have hmiss' : ex (fullPath dir (batchFilename base (page + 1 + k))) = false := by
        have : page + 1 + k = page + (k + 1) := by omega
        rw [this]
        exact hmiss
      rw [ih (page + 1) f (by omega)
          (fun i h1 h2 => hall i (by omega) (by omega)) hmiss']
      rfl

/-- When none of the five duplex naming variants of page 1 exists, the
duplex fallback collects nothing. -/
theorem duplexLoop_nil (ex : String → Bool) (dir base : String)
    (h : ∀ p ∈ duplexPatterns base 1, ex (fullPath dir p) = false) :
    ∀ fuel, duplexLoop ex dir base 1 fuel = [] := by
  intro fuel
  cases fuel with
  | zero => rfl
  | succ f =>
    rw [duplexLoop]
    have hfil : (duplexPatterns base 1).filter (fun p => ex (fullPath dir p)) = [] := by
      rw [List.filter_eq_nil_iff]
      intro p hp
      simp [h p hp]
    simp [hfil]

/-- Claim C3: after a successful multi-page capture, discovery returns
exactly the contiguous prefix `base_1.jpg … base_k.jpg` up to the first
missing index (cap 50), in ascending order; when no file is found under
the sequential scheme (and, for duplex jobs, under the variant scheme)
the scan fails with a no-output error, as it does for a single-page job
whose fixed output file is absent. -/
theorem C3_scan_file_discovery (ex : String → Bool) (dir base : String) (k : Nat)
    (hk : k < 50)
    (hex : ∀ i, 1 ≤ i → i ≤ k → ex (fullPath dir (batchFilename base i)) = true)
    (hgap : ex (fullPath dir (batchFilename base (k + 1))) = false) :
    (0 < k → ∀ dup : Bool, scanCollect true dup ex dir base =
        .ok ((List.range' 1 k).map (batchFilename base)))
    ∧ (k = 0 → scanCollect true false ex dir base =
        .error "scan completed but no files were created")
    ∧ (k = 0 → (∀ p ∈ duplexPatterns base 1, ex (fullPath dir p) = false) →
        scanCollect true true ex dir base =
          .error "scan completed but no files were created")
    ∧ (∀ ex2 : String → Bool, ex2 (fullPath dir (base ++ ".jpg")) = false →
        scanCollect false false ex2 dir base =
          .error "scan completed but file was not created") := by
  have hloop : batchLoop ex dir base 1 maxPages =
      (List.range' 1 k).map (batchFilename base) := by
    apply batchLoop_spec ex dir base k 1 maxPages
    · exact Nat.le_of_lt hk
    · intro i h1 h2
      exact hex i h1 (by omega)
    · have : 1 + k = k + 1 := by omega
      rw [this]
      exact hgap
  refine ⟨?_, ?_, ?_, ?_⟩
  · intro hkpos dup
    obtain ⟨m, rfl⟩ := Nat.exists_eq_succ_of_ne_zero (Nat.pos_iff_ne_zero.mp hkpos)
    rw [scanCollect, if_pos rfl, hloop]
    have hcons : (List.range' 1 (m + 1)).map (batchFilename base) =
        batchFilename base 1 :: (List.range' 2 m).map (batchFilename base) := rfl
    rw [hcons]
    simp
  · intro hk0
    subst hk0
    rw [scanCollect, if_pos rfl, hloop]
    simp
  · intro hk0 hdup
    subst hk0
    rw [scanCollect, if_pos rfl, hloop,
        duplexLoop_nil ex dir base hdup maxPages]
    simp
  · intro ex2 h
    rw [scanCollect]
    simp [h]

/-- Claim C3 (witness): three existing pages with a gap at page 4 yield
exactly those three filenames in order; an absent single-page output and
an empty multi-page probe both fail with a no-output error. -/
theorem C3_scan_file_discovery_witness :
    scanCollect true false
        (fun s => s == "/t/scan_1.jpg" || s == "/t/scan_2.jpg" || s == "/t/scan_3.jpg")
        "/t" "scan" = .ok ["scan_1.jpg", "scan_2.jpg", "scan_3.jpg"] ∧
    scanCollect false false (fun _ => false) "/t" "scan" =
      .error "scan completed but file was not created" ∧
    scanCollect true false (fun _ => false) "/t" "scan" =
      .error "scan completed but no files were created" := by
  have hmain := C3_scan_file_discovery
      (fun s => s == "/t/scan_1.jpg" || s == "/t/scan_2.jpg" || s == "/t/scan_3.jpg")
      "/t" "scan" 3 (by decide)
      (by intro i h1 h2; interval_cases i <;> decide)
      (by decide)
  have hempty := C3_scan_file_discovery (fun _ => false) "/t" "scan" 0
      (by decide) (by intro i h1 h2; omega) (by decide)
  refine ⟨?_, ?_, ?_⟩
  · exact ((hmain.1 (by decide) false).trans
      (congrArg Except.ok (by decide)))
  · exact hmain.2.2.2 (fun _ => false) (by decide)
  · exact hempty.2.1 rfl

/-! ### Claim C6 : registry key set never shrinks -/

/-- An upsert preserves every existing registry key. -/
theorem upsertScanner_keys (now : String) (st : List (String × ScannerInfo))
    (dn : String × String) (d : String) (h : d ∈ st.map Prod.fst) :
    d ∈ (upsertScanner now st dn).map Prod.fst := by
  rw [upsertScanner]
  by_cases hany : st.any (fun e => e.1 = dn.1) = true
  · rw [if_pos hany, List.map_map]
    have hmc : st.map (Prod.fst ∘ fun e =>
        if e.1 = dn.1 then
          (e.1, { e.2 with Connected := true, Status := "connected", LastSeen := now })
        else e) = st.map Prod.fst := by
      apply List.map_congr_left
      intro a _
      by_cases ha : a.1 = dn.1 <;> simp [ha]
    rw [hmc]
    exact h
  · rw [if_neg hany, List.map_append]
    exact List.mem_append_left _ h

/-- Folding upserts over the recognised devices preserves every existing
registry key. -/
theorem foldl_upsert_keys (now : String) :
    ∀ (found : List (String × String)) (st : List (String × ScannerInfo)) (d : String),
      d ∈ st.map Prod.fst →
      d ∈ (found.foldl (upsertScanner now) st).map Prod.fst := by
  intro found
  induction found with
  | nil => intro st d h; exact h
  | cons dn rest ih =>
    intro st d h
    exact ih (upsertScanner now st dn) d (upsertScanner_keys now st dn d h)

/-- The final disconnect-marking pass keeps every key unchanged. -/
theorem detect_mark_keys (found : List (String × String))
    (st1 : List (String × ScannerInfo)) :
    (st1.map (fun e =>
        if found.any (fun dn => dn.1 = e.1) then e else (e.1, disconnectInfo e.2))).map
        Prod.fst = st1.map Prod.fst := by
  rw [List.map_map]
  apply List.map_congr_left
  intro a _
  by_cases ha : found.any (fun dn => dn.1 = a.1) = true <;> simp [ha]

/-- Claim C6: a poll step never deletes a registry entry — every key
survives `detectScanners`; when enumeration fails every record is marked
disconnected; when it succeeds, every record whose device is absent from
the enumeration is marked disconnected rather than removed. -/
theorem C6_registry_never_shrinks (st : List (String × ScannerInfo))
    (res : Option String) (now : String) :
    (∀ d, d ∈ st.map Prod.fst → d ∈ (detectStep st res now).map Prod.fst)
    ∧ (∀ e, e ∈ detectStep st none now →
        e.2.Connected = false ∧ e.2.Status = "disconnected")
    ∧ (∀ out, res = some out →
        ∀ e, e ∈ detectStep st res now →
          e.1 ∉ (parseScanners out).map Prod.fst →
          e.2.Connected = false ∧ e.2.Status = "disconnected") := by
  refine ⟨?_, ?_, ?_⟩
  · intro d h
    cases res with
    | none =>
      rw [detectStep, List.map_map]
      have hmc : st.map (Prod.fst ∘ fun e => (e.1, disconnectInfo e.2)) =
          st.map Prod.fst := by
        apply List.map_congr_left
        intro a _
        rfl
      rw [hmc]
      exact h
    | some out =>
      rw [detectStep]
      rw [detect_mark_keys]
      exact foldl_upsert_keys now (parseScanners out) st d h
  · intro e he
    rw [detectStep] at he
    obtain ⟨x, _, hgx⟩ := List.mem_map.mp he
    rw [← hgx]
    exact ⟨rfl, rfl⟩
  · intro out hres e he hnot
    subst hres
    rw [detectStep] at he
    obtain ⟨x, _, hgx⟩ := List.mem_map.mp he
    cases hany : (parseScanners out).any (fun dn => dn.1 = x.1) with
    | true =>
      exfalso
      rw [hany] at hgx
      simp only [if_true] at hgx
      subst hgx
      obtain ⟨dn, hdn, hdneq⟩ := List.any_eq_true.mp hany
      apply hnot
      have : dn.1 = x.1 := by simpa using hdneq
      rw [← this]
      exact List.mem_map_of_mem Prod.fst hdn
    | false =>
      rw [hany] at hgx
      simp only [Bool.false_eq_true, if_false] at hgx
      rw [← hgx]
      exact ⟨rfl, rfl⟩

/-- Claim C6 (witness): one poll step on a registry holding `olddev` with
an enumeration output naming only `net:dev` — `olddev` survives as a key
and is marked disconnected, `net:dev` is inserted connected. -/
theorem C6_registry_never_shrinks_witness :
    "olddev" ∈ (detectStep
        [("olddev", ⟨"Old", "olddev", true, "connected", "t0"⟩)]
        (some ("device " ++ String.mk [backquoteChar] ++ "net:dev" ++
          String.mk [singleQuoteChar] ++ " is a Net scanner")) "t1").map Prod.fst ∧
    (detectStep [("olddev", ⟨"Old", "olddev", true, "connected", "t0"⟩)]
        (some ("device " ++ String.mk [backquoteChar] ++ "net:dev" ++
          String.mk [singleQuoteChar] ++ " is a Net scanner")) "t1").map
        (fun e => (e.1, e.2.Connected, e.2.Status)) =
      [("olddev", false, "disconnected"), ("net:dev", true, "connected")] := by
  refine ⟨?_, by decide⟩
  exact (C6_registry_never_shrinks
      [("olddev", ⟨"Old", "olddev", true, "connected", "t0"⟩)]
      (some ("device " ++ String.mk [backquoteChar] ++ "net:dev" ++
        String.mk [singleQuoteChar] ++ " is a Net scanner")) "t1").1
    "olddev" (by decide)


/-! ### Claims C4, C5, C10 : patient search -/

/-- The merge's accumulator only prefixes its output: the records added by
`mergeUnique` depend on the seen set alone. -/
theorem mergeUnique_shift :
    ∀ (input acc : List PatientInfo) (seen : List String),
      mergeUnique input acc seen =
        (acc ++ (mergeUnique input [] seen).1, (mergeUnique input [] seen).2) := by
  intro input
  induction input with
  | nil => intro acc seen; simp [mergeUnique]
  | cons p rest ih =>
    intro acc seen
    by_cases hcond : p.PatientID ≠ "" ∧ p.PatientID ∉ seen
    · simp only [mergeUnique, if_pos hcond, List.nil_append]
      rw [ih (acc ++ [p]), ih [p]]
      simp
    · simp only [mergeUnique, if_neg hcond]
      exact ih acc seen

/-- Starting from an empty accumulator, the merge computes `dedupById`. -/
theorem mergeUnique_fst_dedup :
    ∀ (input : List PatientInfo) (seen : List String),
      (mergeUnique input [] seen).1 = dedupById seen input := by
  intro input
  induction input with
  | nil => intro seen; rfl
  | cons p rest ih =>
    intro seen
    by_cases hcond : p.PatientID ≠ "" ∧ p.PatientID ∉ seen
    · simp only [mergeUnique, dedupById, if_pos hcond, List.nil_append]
      rw [mergeUnique_shift rest [p], ih]
      simp
    · simp only [mergeUnique, dedupById, if_neg hcond]
      exact ih seen

/-- Merging a concatenated stream is merging the pieces in sequence. -/
theorem mergeUnique_append :
    ∀ (l1 l2 acc : List PatientInfo) (seen : List String),
      mergeUnique (l1 ++ l2) acc seen =
        mergeUnique l2 (mergeUnique l1 acc seen).1 (mergeUnique l1 acc seen).2 := by
  intro l1
  induction l1 with
  | nil => intro l2 acc seen; rfl
  | cons p rest ih =>
    intro l2 acc seen
    by_cases hcond : p.PatientID ≠ "" ∧ p.PatientID ∉ seen
    · simp only [List.cons_append, mergeUnique, if_pos hcond]
      exact ih l2 (acc ++ [p]) (seen ++ [p.PatientID])
    · simp only [List.cons_append, mergeUnique, if_neg hcond]
      exact ih l2 acc seen

/-- When every issued query succeeds, the pattern loop returns the merge of
the concatenated parsed responses. -/
theorem searchLoop_ok_all (env : String → QueryResult) :
    ∀ (pats : List String) (acc : List PatientInfo) (seen : List String),
      (∀ p ∈ pats, (env p).ok = true) →
      searchLoop env pats acc seen = .ok (mergeUnique (parsedStream env pats) acc seen).1 := by
  intro pats
  induction pats with
  | nil => intro acc seen _; rfl
  | cons p rest ih =>
    intro acc seen hok
    have hp : (env p).ok = true := hok p (List.mem_cons_self p rest)
    simp only [searchLoop, hp, if_true]
    rw [ih _ _ (fun q hq => hok q (List.mem_cons_of_mem p hq))]
    have hstream : parsedStream env (p :: rest) =
        parseFindscuOutput (env p).output ++ parsedStream env rest := by
      simp [parsedStream]
    rw [hstream, mergeUnique_append]

/-- The merge preserves the stream's relative order: its output is a
sublist of its input. -/
theorem dedupById_sublist :
    ∀ (input : List PatientInfo) (seen : List String),
      List.Sublist (dedupById seen input) input := by
  intro input
  induction input with
  | nil => intro seen; simp [dedupById]
  | cons p rest ih =>
    intro seen
    by_cases hcond : p.PatientID ≠ "" ∧ p.PatientID ∉ seen
    · simp only [dedupById, if_pos hcond]
      exact List.Sublist.cons₂ p (ih (seen ++ [p.PatientID]))
    · simp only [dedupById, if_neg hcond]
      exact List.Sublist.cons p (ih seen)

/-- Every record kept by `dedupById` has a non-empty identifier. -/
theorem dedupById_nonempty_id :
    ∀ (input : List PatientInfo) (seen : List String) (r : PatientInfo),
      r ∈ dedupById seen input → r.PatientID ≠ "" := by
  intro input
  induction input with
  | nil => intro seen r h; simp [dedupById] at h
  | cons p rest ih =>
    intro seen r h
    by_cases hcond : p.PatientID ≠ "" ∧ p.PatientID ∉ seen
    · rw [dedupById, if_pos hcond] at h
      rcases List.mem_cons.mp h with h1 | h2
      · rw [h1]; exact hcond.1
      · exact ih (seen ++ [p.PatientID]) r h2
    · rw [dedupById, if_neg hcond] at h
      exact ih seen r h

/-- For each non-empty identifier, `dedupById` keeps exactly one record
when the identifier occurs in the stream and is not already seen, and none
otherwise. -/
theorem dedupById_countP :
    ∀ (input : List PatientInfo) (seen : List String) (pid : String), pid ≠ "" →
      (dedupById seen input).countP (fun r => decide (r.PatientID = pid)) =
        if pid ∉ seen ∧ input.any (fun r => decide (r.PatientID = pid)) then 1 else 0 := by
  intro input
  induction input with
  | nil =>
    intro seen pid _
    simp [dedupById]
  | cons p rest ih =>
    intro seen pid hpid
    by_cases hcond : p.PatientID ≠ "" ∧ p.PatientID ∉ seen
    · rw [dedupById, if_pos hcond, List.countP_cons,
          ih (seen ++ [p.PatientID]) pid hpid]
      by_cases hpp : p.PatientID = pid
      · subst hpp
        simp [List.mem_append, List.any_cons, hcond.2]
      · have hd : pid ≠ p.PatientID := fun h => hpp h.symm
        simp [List.mem_append, List.any_cons, hpp, hd]
    · rw [dedupById, if_neg hcond, ih seen pid hpid]
      rcases not_and_or.mp hcond with h0 | hseen
      · have hpe : p.PatientID = "" := not_not.mp h0
        have hd : p.PatientID ≠ pid := by rw [hpe]; exact fun h => hpid h.symm
        simp [List.any_cons, hd]
      · have hs : p.PatientID ∈ seen := not_not.mp hseen
        by_cases hpp : p.PatientID = pid
        · subst hpp
          simp [List.any_cons, hs]
        · simp [List.any_cons, hpp]

/-- The record kept for an identifier is the first record of the stream
carrying that identifier. -/
theorem dedupById_first_seen :
    ∀ (input : List PatientInfo) (seen : List String) (pid : String) (r : PatientInfo),
      pid ≠ "" → pid ∉ seen →
      input.find? (fun x => decide (x.PatientID = pid)) = some r →
      r ∈ dedupById seen input := by
  intro input
  induction input with
  | nil => intro seen pid r _ _ h; simp at h
  | cons p rest ih =>
    intro seen pid r hpid hns hfind
    by_cases hpp : p.PatientID = pid
    · rw [List.find?_cons_of_pos rest (by simp [hpp])] at hfind
      have hr : p = r := by simpa using hfind
      subst hr
      have hcond : p.PatientID ≠ "" ∧ p.PatientID ∉ seen := by
        rw [hpp]; exact ⟨hpid, hns⟩
      rw [dedupById, if_pos hcond]
      exact List.mem_cons_self p _
    · rw [List.find?_cons_of_neg rest (by simp [hpp])] at hfind
      by_cases hcond : p.PatientID ≠ "" ∧ p.PatientID ∉ seen
      · rw [dedupById, if_pos hcond]
        apply List.mem_cons_of_mem
        have hns2 : pid ∉ seen ++ [p.PatientID] := by
          intro hmem
          rcases List.mem_append.mp hmem with h | h
          · exact hns h
          · exact hpp (List.mem_singleton.mp h).symm
        exact ih (seen ++ [p.PatientID]) pid r hpid hns2 hfind
      · rw [dedupById, if_neg hcond]
        exact ih seen pid r hpid hns hfind

/-- Claim C4: a name search issues the patterns `term*`, `*term*`, `*term`
in that order; when each query succeeds, the returned list is the merge of
the three parsed responses, de-duplicated by patient identifier keeping
the first-seen record and first-seen ordering: every non-empty identifier
occurring in any response yields exactly one returned record. -/
theorem C4_search_merge_dedup (term remoteHost remotePort : String)
    (env : String → QueryResult)
    (hok : ∀ p ∈ searchPatterns term "name", (env p).ok = true) :
    searchPatterns term "name" = [term ++ "*", "*" ++ term ++ "*", "*" ++ term]
    ∧ searchPatients term "name" env true remoteHost remotePort =
        .ok (dedupById [] (parsedStream env (searchPatterns term "name")))
    ∧ List.Sublist (dedupById [] (parsedStream env (searchPatterns term "name")))
        (parsedStream env (searchPatterns term "name"))
    ∧ ∀ pid : String, pid ≠ "" →
        ((dedupById [] (parsedStream env (searchPatterns term "name"))).countP
            (fun r => decide (r.PatientID = pid)) =
          if (parsedStream env (searchPatterns term "name")).any
              (fun r => decide (r.PatientID = pid)) then 1 else 0)
        ∧ ∀ r : PatientInfo,
            (parsedStream env (searchPatterns term "name")).find?
                (fun x => decide (x.PatientID = pid)) = some r →
            r ∈ dedupById [] (parsedStream env (searchPatterns term "name")) := by
  have hmerged : searchLoop env (searchPatterns term "name") [] [] =
      .ok (dedupById [] (parsedStream env (searchPatterns term "name"))) := by
    rw [searchLoop_ok_all env (searchPatterns term "name") [] [] hok,
        mergeUnique_fst_dedup]
  refine ⟨rfl, ?_, dedupById_sublist _ _, ?_⟩
  · unfold searchPatients
    rw [hmerged]
    by_cases hemp : (dedupById [] (parsedStream env (searchPatterns term "name"))).isEmpty
    · simp [hemp]
    · simp [hemp]
  · intro pid hpid
    refine ⟨?_, ?_⟩
    · rw [dedupById_countP (parsedStream env (searchPatterns term "name")) [] pid hpid]
      simp
    · intro r hr
      exact dedupById_first_seen _ [] pid r hpid (by simp) hr

/-- Claim C4 (witness): three successful queries whose responses all carry
the overlapping identifier `P1` merge into exactly one `P1` record. -/
theorem C4_search_merge_dedup_witness :
    searchPatients "Smith" "name"
        (fun _ => ⟨true, "Find Response:\n(0010,0010) PN [Rubo DEMO] # PatientName\n(0010,0020) LO [P1] # PatientID\n"⟩)
        true "h" "104" = .ok [⟨"P1", "Rubo DEMO", "", "", ""⟩] ∧
    (dedupById [] (parsedStream
        (fun _ => ⟨true, "Find Response:\n(0010,0010) PN [Rubo DEMO] # PatientName\n(0010,0020) LO [P1] # PatientID\n"⟩)
        (searchPatterns "Smith" "name"))).countP
        (fun r => decide (r.PatientID = "P1")) = 1 := by
  have h := C4_search_merge_dedup "Smith" "h" "104"
      (fun _ => ⟨true, "Find Response:\n(0010,0010) PN [Rubo DEMO] # PatientName\n(0010,0020) LO [P1] # PatientID\n"⟩)
      (fun p _ => rfl)
  refine ⟨h.2.1.trans (congrArg Except.ok (by decide)), ?_⟩
  exact ((h.2.2.2 "P1" (by decide)).1).trans (by decide)

/-- Claim C5 (counterexample): a query that exits successfully while its
response text contains the association-failure marker is not turned into
an error — the call falls through all patterns and returns an empty ok
result, so the claim as stated fails. -/
theorem C5_counterexample :
    strContains "cannot connect: Association Request Failed"
        "Association Request Failed" = true ∧
    searchPatients "Smith" "name"
        (fun _ => ⟨true, "cannot connect: Association Request Failed"⟩)
        true "h" "104" = .ok [] := by
  exact ⟨by decide, rfl⟩

/-- The pattern loop aborts with the remote diagnostic text at the first
pattern whose query fails with the marker, whatever came before. -/
theorem searchLoop_assoc_error (env : String → QueryResult) (p : String)
    (l2 : List String)
    (hp : (env p).ok = false)
    (hm : strContains (env p).output "Association Request Failed" = true) :
    ∀ (l1 : List String) (acc : List PatientInfo) (seen : List String),
      (∀ q ∈ l1, (env q).ok = true ∨
        strContains (env q).output "Association Request Failed" = false) →
      searchLoop env (l1 ++ p :: l2) acc seen =
        .error ("DICOM error: " ++ strTrim (env p).output) := by
  intro l1
  induction l1 with
  | nil =>
    intro acc seen _
    simp [searchLoop, hp, hm]
  | cons q rest ih =>
    intro acc seen hq
    have hqrest : ∀ x ∈ rest, (env x).ok = true ∨
        strContains (env x).output "Association Request Failed" = false :=
      fun x hx => hq x (List.mem_cons_of_mem q hx)
    cases hok : (env q).ok with
    | true =>
      simp only [List.cons_append, searchLoop, hok, if_true]
      exact ih _ _ hqrest
    | false =>
      have hnm : strContains (env q).output "Association Request Failed" = false := by
        rcases hq q (List.mem_cons_self q rest) with h | h
        · rw [hok] at h; exact absurd h (by simp)
        · exact h
      simp only [List.cons_append, searchLoop, hok, hnm, Bool.false_eq_true, if_false]
      exact ih _ _ hqrest

/-- Claim C5 (amended): when a query's external command fails and its
combined output contains the association-failure marker, and no earlier
pattern failed that way, `SearchPatients` immediately returns
`DICOM error: <trimmed output>`; the results of the patterns after the
failing one are never consulted.  A marker inside a successfully exiting
query's output is not checked (see the counterexample). -/
theorem C5_assoc_failure_amended (term searchType remoteHost remotePort : String)
    (testOk : Bool) (env env2 : String → QueryResult)
    (l1 : List String) (p : String) (l2 : List String)
    (hsplit : searchPatterns term searchType = l1 ++ p :: l2)
    (hbefore : ∀ q ∈ l1, (env q).ok = true ∨
      strContains (env q).output "Association Request Failed" = false)
    (hp : (env p).ok = false)
    (hm : strContains (env p).output "Association Request Failed" = true) :
    searchPatients term searchType env testOk remoteHost remotePort =
      .error ("DICOM error: " ++ strTrim (env p).output)
    ∧ ((∀ q ∈ l1, env2 q = env q) → env2 p = env p →
        searchPatients term searchType env2 testOk remoteHost remotePort =
          .error ("DICOM error: " ++ strTrim (env p).output)) := by
  constructor
  · unfold searchPatients
    rw [hsplit, searchLoop_assoc_error env p l2 hp hm l1 [] [] hbefore]
  · intro hagree hap
    unfold searchPatients
    rw [hsplit, searchLoop_assoc_error env2 p l2 (by rw [hap]; exact hp)
        (by rw [hap]; exact hm) l1 [] []
        (fun q hq => by rw [hagree q hq]; exact hbefore q hq)]
    rw [hap]

/-- Claim C5 (witness): the second pattern's command fails with the marker
after a clean first pattern; the call errors with the remote text. -/
theorem C5_assoc_failure_amended_witness :
    searchPatients "Smith" "name"
        (fun q => if q = "*Smith*"
          then ⟨false, "Association Request Failed: peer unreachable"⟩
          else ⟨true, ""⟩)
        true "h" "104" =
      .error "DICOM error: Association Request Failed: peer unreachable" := by
  have h := (C5_assoc_failure_amended "Smith" "name" "h" "104" true
      (fun q => if q = "*Smith*"
        then ⟨false, "Association Request Failed: peer unreachable"⟩
        else ⟨true, ""⟩)
      (fun q => if q = "*Smith*"
        then ⟨false, "Association Request Failed: peer unreachable"⟩
        else ⟨true, ""⟩)
      ["Smith*"] "*Smith*" ["*Smith"] rfl
      (by
        intro q hq
        rw [List.mem_singleton] at hq
        subst hq
        left
        rfl)
      rfl (by decide)).1
  exact h.trans (congrArg Except.error (by decide))

/-- Every record list returned by the pattern loop consists of records with
non-empty identifiers, provided the accumulator starts that way. -/
theorem searchLoop_ok_ids (env : String → QueryResult) :
    ∀ (pats : List String) (acc : List PatientInfo) (seen : List String)
      (l : List PatientInfo),
      (∀ r ∈ acc, r.PatientID ≠ "") →
      searchLoop env pats acc seen = .ok l →
      ∀ r ∈ l, r.PatientID ≠ "" := by
  intro pats
  induction pats with
  | nil =>
    intro acc seen l hacc h
    have hl : acc = l := by simpa [searchLoop] using h
    subst hl
    exact hacc
  | cons p rest ih =>
    intro acc seen l hacc h
    cases hok : (env p).ok with
    | true =>
      simp only [searchLoop, hok, if_true] at h
      refine ih _ _ l ?_ h
      intro r hr
      rw [mergeUnique_shift, mergeUnique_fst_dedup] at hr
      rcases List.mem_append.mp hr with h1 | h2
      · exact hacc r h1
      · exact dedupById_nonempty_id _ seen r h2
    | false =>
      cases hmk : strContains (env p).output "Association Request Failed" with
      | true =>
        simp [searchLoop, hok, hmk] at h
      | false =>
        simp only [searchLoop, hok, hmk, Bool.false_eq_true, if_false] at h
        exact ih acc seen l hacc h

/-- Claim C10: every patient record returned by `SearchPatients` has a
non-empty patient identifier — a parsed record with an empty identifier
field is dropped by the merge, never returned. -/
theorem C10_returned_ids_nonempty (term searchType remoteHost remotePort : String)
    (env : String → QueryResult) (testOk : Bool) (l : List PatientInfo)
    (h : searchPatients term searchType env testOk remoteHost remotePort = .ok l) :
    ∀ r ∈ l, r.PatientID ≠ "" := by
  unfold searchPatients at h
  cases hsl : searchLoop env (searchPatterns term searchType) [] [] with
  | error e =>
    rw [hsl] at h
    exact absurd h (by simp)
  | ok l0 =>
    rw [hsl] at h
    have hids := searchLoop_ok_ids env (searchPatterns term searchType) [] [] l0
        (by intro r hr; simp at hr) hsl
    have h2 : (if l0.isEmpty = true then
        (if testOk = true then (Except.ok l0 : Except String (List PatientInfo))
          else .error ("unable to connect to DICOM server at " ++
            remoteHost ++ ":" ++ remotePort))
        else .ok l0) = .ok l := h
    by_cases hemp : l0.isEmpty = true
    · rw [if_pos hemp] at h2
      cases testOk with
      | true =>
        simp only [if_true] at h2
        have hl : l0 = l := by simpa using h2
        subst hl
        exact hids
      | false =>
        simp at h2
    · rw [if_neg hemp] at h2
      have hl : l0 = l := by simpa using h2
      subst hl
      exact hids

/-- Claim C10 (witness): a response containing a record with display name
`John` but empty identifier, followed by a `Mary`/`P2` record — `John` is
parsed but dropped; only the `P2` record is returned. -/
theorem C10_returned_ids_nonempty_witness :
    parseFindscuOutput
        "Find Response:\n(0010,0010) PN [John] # PatientName\nFind Response:\n(0010,0010) PN [Mary] # PatientName\n(0010,0020) LO [P2] # PatientID\n" =
      [⟨"", "John", "", "", ""⟩, ⟨"P2", "Mary", "", "", ""⟩] ∧
    searchPatients "J" "name"
        (fun _ => ⟨true, "Find Response:\n(0010,0010) PN [John] # PatientName\nFind Response:\n(0010,0010) PN [Mary] # PatientName\n(0010,0020) LO [P2] # PatientID\n"⟩)
        true "h" "104" = .ok [⟨"P2", "Mary", "", "", ""⟩] ∧
    (⟨"P2", "Mary", "", "", ""⟩ : PatientInfo).PatientID ≠ "" := by
  refine ⟨by decide, rfl, ?_⟩
  exact C10_returned_ids_nonempty "J" "name" "h" "104"
      (fun _ => ⟨true, "Find Response:\n(0010,0010) PN [John] # PatientName\nFind Response:\n(0010,0010) PN [Mary] # PatientName\n(0010,0020) LO [P2] # PatientID\n"⟩)
      true [⟨"P2", "Mary", "", "", ""⟩] rfl
      ⟨"P2", "Mary", "", "", ""⟩ (List.mem_singleton.mpr rfl)

/-! ### Claim C9 : snapshot aliasing -/

/-- Claim C9 is refuted: the getters return the registry's own cell
references, not copies.  With the heap explicit, a registry holding one
connected device in cell 0 answers `GetScanners` and
`GetConnectedScanners` with that very cell; the next poll cycle — an
enumeration failure, or a successful enumeration that no longer lists the
device — mutates cell 0 in place, so the record behind the reference the
caller already received now reads `Connected = false` /
`"disconnected"`: a field of a returned record changed after the call,
which the claim rules out. -/
theorem C9_snapshot_aliasing_bug :
    GetScanners
        (⟨fun _ => ⟨"Old", "olddev", true, "connected", "t0"⟩,
          [("olddev", 0)], 1⟩ : RegistryState) = [0] ∧
    GetConnectedScanners
        (⟨fun _ => ⟨"Old", "olddev", true, "connected", "t0"⟩,
          [("olddev", 0)], 1⟩ : RegistryState) = [0] ∧
    ((⟨fun _ => ⟨"Old", "olddev", true, "connected", "t0"⟩,
          [("olddev", 0)], 1⟩ : RegistryState).heap 0).Connected = true ∧
    ((detectScannersStore
        (⟨fun _ => ⟨"Old", "olddev", true, "connected", "t0"⟩,
          [("olddev", 0)], 1⟩ : RegistryState) none "t1").heap 0).Connected = false ∧
    ((detectScannersStore
        (⟨fun _ => ⟨"Old", "olddev", true, "connected", "t0"⟩,
          [("olddev", 0)], 1⟩ : RegistryState) none "t1").heap 0).Status =
      "disconnected" ∧
    ((detectScannersStore
        (⟨fun _ => ⟨"Old", "olddev", true, "connected", "t0"⟩,
          [("olddev", 0)], 1⟩ : RegistryState) (some "") "t1").heap 0).Connected =
      false := by
  exact ⟨by decide, by decide, rfl, by decide, by decide, by decide⟩
